import Mathlib

/-!
Shallow embedding of `server/src/analyzer/sourceFile.ts`: the per-file
incremental analysis state machine of the pyright type checker.

External collaborators (parser, post-parse walker, semantic analyzer, type
analyzer, import resolver, disk reads) are passed in as explicit data or
function parameters; an `Except Unit _` argument stands for "the external
component either returned this value or threw an exception".
-/

/-- `common/textRange.ts` `TextRange`: a span of source text (`new TextRange(start, length)`). -/
structure TextRange where
  start : Nat
  length : Nat
deriving DecidableEq

/-- `parser/parseNodes.ts` `ModuleNode`, embedded by the only part this module
touches: the range it is constructed with (`new ModuleNode(new TextRange(0, 0))`). -/
structure ModuleNode where
  range : TextRange
deriving DecidableEq

/-- `parser/tokenizerTypes.ts` `Token`, embedded by its range; `sourceFile.ts`
only ever stores collections of tokens, never inspects one. -/
structure Token where
  range : TextRange
deriving DecidableEq

/-- `parser/parser.ts` `ParseResults`: syntax tree plus token and line collections. -/
structure ParseResults where
  parseTree : ModuleNode
  tokens : List Token
  lines : List TextRange
deriving DecidableEq

/-- `common/diagnostic.ts` `DiagnosticCategory` (severity of a diagnostic). -/
inductive DiagnosticCategory where
  | error
  | warning
  | unusedCode
deriving DecidableEq

/-- `common/diagnostic.ts` `Diagnostic`: `new Diagnostic(category, message, range?)`. -/
structure Diagnostic where
  category : DiagnosticCategory
  message : String
  range : Option TextRange := none
deriving DecidableEq

/-- `common/diagnosticSink.ts` `DiagnosticSink.addError(message)` produces a
diagnostic with error severity and no range; a sink is its ordered list of
diagnostics. -/
def Diagnostic.mkError (message : String) : Diagnostic :=
  { category := DiagnosticCategory.error, message }

/-- Modelled from the spec: `analyzer/circularDependency.ts` `CircularDependency`
(not under src/) is "an equality-comparable cycle descriptor (ordered path list)". -/
structure CircularDependency where
  paths : List String
deriving DecidableEq

/-- Modelled from the spec: `CircularDependency.isEqual` is structural equality
of the ordered path chain. -/
def CircularDependency.isEqual (a b : CircularDependency) : Bool :=
  a.paths == b.paths

/-- `analyzer/importResult.ts` `ImportResult`, embedded by the only field
`sourceFile.ts` reads: the ordered list of resolved paths. -/
structure ImportResult where
  resolvedPaths : List String
deriving DecidableEq

/-- The module-reference descriptor handed to `ImportResolver.resolveImport`. -/
structure ImportDescriptor where
  leadingDots : Nat
  nameParts : List String
  importedSymbols : Option (List String)
deriving DecidableEq

/-- `analyzer/postParseWalker.ts` `ModuleImport`: one explicit import statement
discovered during parsing (the `nameNode` back-pointer into the tree is dropped:
it is only used to attach resolution results to the tree, state this module
does not own). -/
structure ModuleImport where
  leadingDots : Nat
  nameParts : List String
  importedSymbols : Option (List String)
deriving DecidableEq

/-- The report-mode string options of `common/configOptions.ts`
(`'none' | 'warning' | 'error'`). -/
inductive ReportMode where
  | none
  | warning
  | error
deriving DecidableEq

/-- `common/configOptions.ts` `ConfigOptions`, restricted to the fields
`sourceFile.ts` reads (the execution-environment lookup only feeds the external
parser and analyzers, which are parameters here). -/
structure ConfigOptions where
  reportImportCycles : ReportMode
  reportTypeshedErrors : ReportMode
  ignore : List String
  internalTestMode : Bool
deriving DecidableEq

/-- JavaScript truthiness of `Array.prototype.find`'s result on an array of
strings: `undefined` is falsy, and so is the empty string. -/
def jsFindTruthy : Option String → Bool
  | some found => found != ""
  | none => false

/-- JavaScript `String.prototype.startsWith`, modelled on the character list
(one string is a prefix of the other), stated via `List.isPrefixOf` so that it
evaluates definitionally on literals. -/
def jsStartsWith (s p : String) : Bool :=
  p.data.isPrefixOf s.data

/-- `sourceFile.ts` `MaxImportCyclesPerFile`. -/
def MaxImportCyclesPerFile : Nat := 4

/- `sourceFile.ts` `AnalysisPhase` is a TypeScript numeric enum; its members
are embedded as the corresponding numbers. -/
namespace AnalysisPhase

def Parse : Nat := 0

def SemanticAnalysis : Nat := 1

def TypeAnalysis : Nat := 2

end AnalysisPhase

/-- `sourceFile.ts` `AnalysisJob`. `fileContentsVersion` is an `Int` because the
initial job is constructed with version `-1`. -/
structure AnalysisJob where
  fileContentsVersion : Int
  nextPhaseToRun : Nat
  parseTreeNeedsCleaning : Bool
  parseResults : Option ParseResults
  parseDiagnostics : List Diagnostic
  semanticAnalysisDiagnostics : List Diagnostic
  typeAnalysisLastPassDiagnostics : List Diagnostic
  typeAnalysisFinalDiagnostics : List Diagnostic
  circularDependencies : List CircularDependency
  typeAnalysisPassNumber : Nat
  isTypeAnalysisPassNeeded : Bool
  isTypeAnalysisFinalized : Bool
  imports : Option (List ImportResult)
  builtinsImport : Option ImportResult
  typingModulePath : Option String
deriving DecidableEq

/-- The state of one `SourceFile` object: its immutable identity fields and its
mutable analysis state. -/
structure SourceFile where
  filePath : String
  isStubFile : Bool
  isTypeshedStubFile : Bool
  isTypingStubFile : Bool
  isBuiltInStubFile : Bool
  analysisJob : AnalysisJob
  diagnosticVersion : Nat
  fileContentsVersion : Int
  clientVersion : Option Int
  fileContents : Option String
deriving DecidableEq

/-- `common/pathUtils.ts` `getFileName` (not under src/): the final path
component, i.e. the text after the last `/`. -/
def getFileName (filePath : String) : String :=
  (filePath.splitOn "/").getLastD filePath

namespace SourceFile

/-- The `SourceFile` constructor. -/
def create (filePath : String) (isTypeshedStubFile : Bool) : SourceFile :=
  let isStubFile := filePath.endsWith ".pyi"
  let fileName := getFileName filePath
  { filePath
    isStubFile
    isTypeshedStubFile
    isTypingStubFile := isStubFile &&
      (fileName == "typing.pyi" || fileName == "typing_extensions.pyi")
    isBuiltInStubFile := isStubFile &&
      (filePath.endsWith "/collections/__init__.pyi" ||
        fileName == "dataclasses.pyi" || fileName == "abc.pyi")
    analysisJob := {
      fileContentsVersion := -1
      nextPhaseToRun := AnalysisPhase.SemanticAnalysis
      parseTreeNeedsCleaning := false
      parseResults := none
      parseDiagnostics := []
      semanticAnalysisDiagnostics := []
      typeAnalysisLastPassDiagnostics := []
      typeAnalysisFinalDiagnostics := []
      circularDependencies := []
      typeAnalysisPassNumber := 1
      isTypeAnalysisPassNeeded := true
      isTypeAnalysisFinalized := false
      imports := none
      builtinsImport := none
      typingModulePath := none }
    diagnosticVersion := 0
    fileContentsVersion := 0
    clientVersion := none
    fileContents := none }

/-- `getDiagnosticVersion()`. -/
def getDiagnosticVersion (s : SourceFile) : Nat :=
  s.diagnosticVersion

/-- `isParseRequired()`. -/
def isParseRequired (s : SourceFile) : Bool :=
  s.analysisJob.fileContentsVersion != s.fileContentsVersion

/-- `isSemanticAnalysisRequired()`. -/
def isSemanticAnalysisRequired (s : SourceFile) : Bool :=
  if s.isParseRequired then
    true
  else
    decide (s.analysisJob.nextPhaseToRun ≤ AnalysisPhase.SemanticAnalysis)

/-- `isTypeAnalysisRequired()`. -/
def isTypeAnalysisRequired (s : SourceFile) : Bool :=
  if s.isSemanticAnalysisRequired then
    true
  else if decide (s.analysisJob.nextPhaseToRun < AnalysisPhase.TypeAnalysis) ||
      s.analysisJob.isTypeAnalysisPassNeeded then
    true
  else
    false

/-- `isAnalysisFinalized()`. -/
def isAnalysisFinalized (s : SourceFile) : Bool :=
  !s.isTypeAnalysisRequired && s.analysisJob.isTypeAnalysisFinalized

/-- `getParseResults()`. -/
def getParseResults (s : SourceFile) : Option ParseResults :=
  if !s.isParseRequired then s.analysisJob.parseResults else none

/-- `getImports()`. -/
def getImports (s : SourceFile) : List ImportResult :=
  s.analysisJob.imports.getD []

/-- `getBuiltinsImport()`. -/
def getBuiltinsImport (s : SourceFile) : Option ImportResult :=
  s.analysisJob.builtinsImport

/-- `getAnalysisPassCount()`. -/
def getAnalysisPassCount (s : SourceFile) : Nat :=
  s.analysisJob.typeAnalysisPassNumber

/-- `markDirty()`. -/
def markDirty (s : SourceFile) : SourceFile :=
  { s with
    fileContentsVersion := s.fileContentsVersion + 1
    analysisJob := { s.analysisJob with
      isTypeAnalysisFinalized := false
      nextPhaseToRun := AnalysisPhase.SemanticAnalysis } }

/-- `markReanalysisRequired()`. -/
def markReanalysisRequired (s : SourceFile) : SourceFile :=
  { s with
    analysisJob := { s.analysisJob with
      nextPhaseToRun := AnalysisPhase.SemanticAnalysis
      parseTreeNeedsCleaning := true
      isTypeAnalysisFinalized := false } }

/-- `setClientVersion(version, contents)`. -/
def setClientVersion (s : SourceFile) (version : Option Int) (contents : String) :
    SourceFile :=
  let s := { s with clientVersion := version }
  match version with
  | none => { s with fileContents := none }
  | some _ =>
    let s :=
      match s.fileContents with
      | some oldContents => if oldContents ≠ contents then s.markDirty else s
      | none => s
    { s with fileContents := some contents }

/-- `setTypeAnalysisPassNeeded()`. -/
def setTypeAnalysisPassNeeded (s : SourceFile) : SourceFile :=
  { s with
    analysisJob := { s.analysisJob with
      isTypeAnalysisPassNeeded := true
      isTypeAnalysisFinalized := false } }

/-- `addCircularDependency(circDependency)`. -/
def addCircularDependency (s : SourceFile) (circDependency : CircularDependency) :
    SourceFile :=
  if s.analysisJob.circularDependencies.length < MaxImportCyclesPerFile then
    if !(s.analysisJob.circularDependencies.any fun dep => dep.isEqual circDependency) then
      { s with
        analysisJob := { s.analysisJob with
          circularDependencies :=
            s.analysisJob.circularDependencies ++ [circDependency] } }
    else
      s
  else
    s

/-- `getDiagnostics(options, prevDiagnosticVersion)`. The TypeScript early
returns are rendered as nested `if`/`else`. -/
def getDiagnostics (s : SourceFile) (options : ConfigOptions)
    (prevDiagnosticVersion : Option Nat) : Option (List Diagnostic) :=
  if prevDiagnosticVersion = some s.diagnosticVersion then
    none
  else
    let diagList : List Diagnostic :=
      s.analysisJob.parseDiagnostics ++ s.analysisJob.semanticAnalysisDiagnostics ++
        s.analysisJob.typeAnalysisFinalDiagnostics
    let diagList :=
      if options.reportImportCycles ≠ ReportMode.none ∧
          s.analysisJob.circularDependencies.length > 0 then
        let category :=
          if options.reportImportCycles = ReportMode.warning then
            DiagnosticCategory.warning
          else
            DiagnosticCategory.error
        diagList ++ s.analysisJob.circularDependencies.map fun cirDep =>
          { category
            message := "Cycle detected in import chain\n" ++
              String.intercalate "\n" (cirDep.paths.map fun path => "  " ++ path) }
      else
        diagList
    if s.isTypeshedStubFile ∧ options.reportTypeshedErrors = ReportMode.none then
      none
    else
      let diagList :=
        if s.isTypeshedStubFile ∧ options.reportTypeshedErrors = ReportMode.warning then
          diagList.map fun diag =>
            if diag.category = DiagnosticCategory.error then
              { category := DiagnosticCategory.warning
                message := diag.message
                range := diag.range }
            else
              diag
        else
          diagList
      -- `if (options.ignore.find(ignorePath => this._filePath.startsWith(ignorePath)))`:
      -- `find` returns the first matching ignore path itself and the `if` tests
      -- its truthiness, so a matching empty-string entry does not fire.
      let diagList :=
        if jsFindTruthy (options.ignore.find? fun ignorePath =>
            jsStartsWith s.filePath ignorePath) then
          []
        else
          diagList
      some diagList

end SourceFile

/-- The data a successful run of the external parser and post-parse walker
leaves behind inside `parse`'s `try` block: the `ParseResults`, the diagnostics
the parser and walker appended to the sink, and the explicit module imports
the walker discovered (`walker.getImportedModules()`). -/
structure ParseSuccess where
  parseResults : ParseResults
  sinkDiagnostics : List Diagnostic
  moduleImports : List ModuleImport
deriving DecidableEq

/-- The placeholder parse results installed by `parse`'s catch handler:
`new ModuleNode(new TextRange(0, 0))` with empty token and line collections. -/
def emptyParseResults : ParseResults :=
  { parseTree := { range := { start := 0, length := 0 } }
    tokens := []
    lines := [] }

/-- The synthetic diagnostic added when the disk read fails. -/
def fileReadErrorDiagnostic : Diagnostic :=
  Diagnostic.mkError "Source file could not be read"

/-- The synthetic diagnostic installed by `parse`'s catch handler. -/
def internalParseErrorDiagnostic : Diagnostic :=
  Diagnostic.mkError "An internal error occurred while parsing file"

/-- The synthetic diagnostic installed by `doSemanticAnalysis`'s catch handler. -/
def internalSemanticErrorDiagnostic : Diagnostic :=
  Diagnostic.mkError "An internal error occurred while performing semantic analysis"

/-- The synthetic diagnostic installed by `doTypeAnalysis`'s catch handler. -/
def internalTypeErrorDiagnostic : Diagnostic :=
  Diagnostic.mkError "An internal error occurred while performing type analysis"

namespace SourceFile

/-- The contents-resolution prefix of `parse`: the local `fileContents` starts
as the in-memory buffer and is replaced by a disk read when `clientVersion` is
null; a failed read (`diskContents = none`) yields one synthetic diagnostic in
the sink and empty text. Returns (sink contents so far, text to parse). -/
def resolveFileContents (s : SourceFile) (diskContents : Option String) :
    List Diagnostic × String :=
  match s.clientVersion with
  | none =>
    match diskContents with
    | some contents => ([], contents)
    | none => ([fileReadErrorDiagnostic], "")
  | some _ => ([], s.fileContents.getD "")

/-- `_resolveImports(moduleImports, configOptions, execEnv)`. The
`ImportResolver` built from the file path, options and environment is passed in
as the function `resolver`; attaching each result to its name node
(`AnalyzerNodeInfo.setImportInfo`) mutates the tree, not this state, and is
dropped. -/
def resolveImports (filePath : String) (resolver : ImportDescriptor → ImportResult)
    (moduleImports : List ModuleImport) :
    List ImportResult × Option ImportResult × Option String :=
  let builtinsImportResult :=
    resolver { leadingDots := 0, nameParts := ["builtins"], importedSymbols := none }
  -- `resolvedPaths.length === 0 || resolvedPaths[0] !== this.getFilePath()`
  -- (an out-of-range `[0]` is `undefined`, which differs from any string),
  -- so each self-import test is equivalently `head? ≠ some filePath`.
  let typingImportResult :=
    resolver { leadingDots := 0, nameParts := ["typing"], importedSymbols := none }
  let explicitImports := moduleImports.map fun moduleImport =>
    resolver
      { leadingDots := moduleImport.leadingDots
        nameParts := moduleImport.nameParts
        importedSymbols := moduleImport.importedSymbols }
  ((if builtinsImportResult.resolvedPaths.head? ≠ some filePath then
      [builtinsImportResult]
    else
      []) ++
    (if typingImportResult.resolvedPaths.head? ≠ some filePath then
      [typingImportResult]
    else
      []) ++ explicitImports,
    if builtinsImportResult.resolvedPaths.head? ≠ some filePath then
      some builtinsImportResult
    else
      none,
    if typingImportResult.resolvedPaths.head? ≠ some filePath then
      typingImportResult.resolvedPaths.head?
    else
      none)

/-- `parse(configOptions)`. `diskContents` is the outcome of the best-effort
disk read (`none` = read threw); `parserRun` is the combined behavior of the
external parser, post-parse walker and optional test walker on the resolved
text (`Except.error` = one of them threw, which also stands for the import
resolver throwing); `resolver` is the import resolver's behavior. Returns the
updated state and the TypeScript return value. -/
def parse (s : SourceFile) (diskContents : Option String)
    (parserRun : String → Except Unit ParseSuccess)
    (resolver : ImportDescriptor → ImportResult) : SourceFile × Bool :=
  if !s.isParseRequired then
    (s, false)
  else
    let resolved := s.resolveFileContents diskContents
    let jobAfterTry :=
      match parserRun resolved.2 with
      | Except.ok success =>
        let resolvedImports :=
          resolveImports s.filePath resolver success.moduleImports
        { s.analysisJob with
          parseResults := some success.parseResults
          imports := some resolvedImports.1
          builtinsImport := resolvedImports.2.1
          typingModulePath := resolvedImports.2.2
          parseDiagnostics := resolved.1 ++ success.sinkDiagnostics }
      | Except.error _ =>
        { s.analysisJob with
          parseResults := some emptyParseResults
          imports := none
          builtinsImport := none
          parseDiagnostics := [internalParseErrorDiagnostic] }
    ({ s with
        analysisJob := { jobAfterTry with
          fileContentsVersion := s.fileContentsVersion
          nextPhaseToRun := AnalysisPhase.SemanticAnalysis
          parseTreeNeedsCleaning := false }
        diagnosticVersion := s.diagnosticVersion + 1 },
      true)

/-- `_cleanParseTreeIfRequired()`: running the cleaner walker mutates only the
tree; the state effect is clearing the flag when parse results are present. -/
def cleanParseTreeIfRequired (s : SourceFile) : SourceFile :=
  if s.analysisJob.parseResults.isSome && s.analysisJob.parseTreeNeedsCleaning then
    { s with analysisJob := { s.analysisJob with parseTreeNeedsCleaning := false } }
  else
    s

/-- `doSemanticAnalysis(configOptions, builtinsScope)`. `analyzerRun` is the
external semantic analyzer's behavior: the diagnostics it left in the sink, or
`Except.error` when it threw. -/
def doSemanticAnalysis (s : SourceFile)
    (analyzerRun : Except Unit (List Diagnostic)) : SourceFile :=
  let s := s.cleanParseTreeIfRequired
  let jobAfterTry :=
    match analyzerRun with
    | Except.ok sinkDiagnostics =>
      { s.analysisJob with semanticAnalysisDiagnostics := sinkDiagnostics }
    | Except.error _ =>
      { s.analysisJob with
        semanticAnalysisDiagnostics := [internalSemanticErrorDiagnostic] }
  { s with
    analysisJob := { jobAfterTry with
      nextPhaseToRun := AnalysisPhase.TypeAnalysis
      typeAnalysisPassNumber := 1
      circularDependencies := []
      isTypeAnalysisPassNeeded := true
      isTypeAnalysisFinalized := false }
    diagnosticVersion := s.diagnosticVersion + 1 }

/-- `doTypeAnalysis(configOptions, importMap)`. `analyzerRun` is the external
type analyzer's behavior: (`analyze()`'s pass-needed result, the diagnostics it
left in the sink), or `Except.error` when it threw. Note: this operation does
not touch `_diagnosticVersion`. -/
def doTypeAnalysis (s : SourceFile)
    (analyzerRun : Except Unit (Bool × List Diagnostic)) : SourceFile :=
  let job := { s.analysisJob with
    typeAnalysisPassNumber := s.analysisJob.typeAnalysisPassNumber + 1 }
  match analyzerRun with
  | Except.ok (passNeeded, sinkDiagnostics) =>
    { s with
      analysisJob := { job with
        isTypeAnalysisPassNeeded := passNeeded
        typeAnalysisLastPassDiagnostics := sinkDiagnostics } }
  | Except.error _ =>
    { s with
      analysisJob := { job with
        isTypeAnalysisPassNeeded := false
        typeAnalysisLastPassDiagnostics := [internalTypeErrorDiagnostic] } }

/-- `finalizeAnalysis()`. -/
def finalizeAnalysis (s : SourceFile) : SourceFile :=
  { s with
    analysisJob := { s.analysisJob with
      isTypeAnalysisFinalized := true
      typeAnalysisFinalDiagnostics := s.analysisJob.typeAnalysisLastPassDiagnostics
      typeAnalysisLastPassDiagnostics := [] }
    diagnosticVersion := s.diagnosticVersion + 1 }

/-- One invocation of a mutating operation of the state machine. The
`assert`ed preconditions of the phase operations are hypotheses: violating
them is a fatal programmer error, not a transition. -/
inductive Step : SourceFile → SourceFile → Prop where
  | markDirty (s : SourceFile) : Step s s.markDirty
  | markReanalysisRequired (s : SourceFile) : Step s s.markReanalysisRequired
  | setClientVersion (s : SourceFile) (version : Option Int) (contents : String) :
      Step s (s.setClientVersion version contents)
  | setTypeAnalysisPassNeeded (s : SourceFile) : Step s s.setTypeAnalysisPassNeeded
  | addCircularDependency (s : SourceFile) (circDependency : CircularDependency) :
      Step s (s.addCircularDependency circDependency)
  | parse (s : SourceFile) (diskContents : Option String)
      (parserRun : String → Except Unit ParseSuccess)
      (resolver : ImportDescriptor → ImportResult) :
      Step s (s.parse diskContents parserRun resolver).1
  | doSemanticAnalysis (s : SourceFile) (analyzerRun : Except Unit (List Diagnostic))
      (h1 : s.isParseRequired = false) (h2 : s.isSemanticAnalysisRequired = true)
      (h3 : s.analysisJob.nextPhaseToRun = AnalysisPhase.SemanticAnalysis) :
      Step s (s.doSemanticAnalysis analyzerRun)
  | doTypeAnalysis (s : SourceFile) (analyzerRun : Except Unit (Bool × List Diagnostic))
      (h1 : s.isParseRequired = false) (h2 : s.isSemanticAnalysisRequired = false)
      (h3 : s.isTypeAnalysisRequired = true)
      (h4 : s.analysisJob.nextPhaseToRun = AnalysisPhase.TypeAnalysis) :
      Step s (s.doTypeAnalysis analyzerRun)
  | finalizeAnalysis (s : SourceFile) (h : s.isTypeAnalysisRequired = false) :
      Step s s.finalizeAnalysis

/-- The states a `SourceFile` can actually be in: freshly constructed, or the
result of one of the mutating operations. -/
inductive Reachable : SourceFile → Prop where
  | create (filePath : String) (isTypeshedStubFile : Bool) :
      Reachable (SourceFile.create filePath isTypeshedStubFile)
  | step {s t : SourceFile} : Reachable s → Step s t → Reachable t

end SourceFile

/-- The spec's four-step description of `getDiagnostics`'s recomputation path,
written from the specification text for comparison with the embedding:
(1) concatenate the parse, semantic and finalized-type buckets in that order;
(2) when cycle reporting is enabled, append one diagnostic per recorded cycle,
warning-severity exactly when the mode is warning; (3) for a typeshed stub,
mode none suppresses the result entirely and mode warning downgrades every
error-severity entry, keeping message and range; (4) last, an ignore-path match
empties the list (but still returns a list). -/
def getDiagnosticsRecomputed (s : SourceFile) (options : ConfigOptions) :
    Option (List Diagnostic) :=
  let concatenated := s.analysisJob.parseDiagnostics ++
    s.analysisJob.semanticAnalysisDiagnostics ++
    s.analysisJob.typeAnalysisFinalDiagnostics
  let withCycles :=
    if options.reportImportCycles ≠ ReportMode.none then
      concatenated ++ s.analysisJob.circularDependencies.map fun cirDep =>
        { category :=
            if options.reportImportCycles = ReportMode.warning then
              DiagnosticCategory.warning
            else
              DiagnosticCategory.error
          message := "Cycle detected in import chain\n" ++
            String.intercalate "\n" (cirDep.paths.map fun path => "  " ++ path) }
    else
      concatenated
  if s.isTypeshedStubFile ∧ options.reportTypeshedErrors = ReportMode.none then
    none
  else
    let downgraded :=
      if s.isTypeshedStubFile ∧ options.reportTypeshedErrors = ReportMode.warning then
        withCycles.map fun diag =>
          if diag.category = DiagnosticCategory.error then
            { diag with category := DiagnosticCategory.warning }
          else
            diag
      else
        withCycles
    if options.ignore.any fun ignorePath => jsStartsWith s.filePath ignorePath then
      some []
    else
      some downgraded

/-- The amended four-step description of `getDiagnostics`'s recomputation path:
steps (1)-(3) as in `getDiagnosticsRecomputed`, but step (4) reflects the
JavaScript truthiness of the ignore lookup: the first configured ignore path
the file path starts with is looked up, and only when that entry exists and is
non-empty is the list emptied — a matching empty-string entry suppresses
nothing. -/
def getDiagnosticsRecomputedAmended (s : SourceFile) (options : ConfigOptions) :
    Option (List Diagnostic) :=
  let concatenated := s.analysisJob.parseDiagnostics ++
    s.analysisJob.semanticAnalysisDiagnostics ++
    s.analysisJob.typeAnalysisFinalDiagnostics
  let withCycles :=
    if options.reportImportCycles ≠ ReportMode.none then
      concatenated ++ s.analysisJob.circularDependencies.map fun cirDep =>
        { category :=
            if options.reportImportCycles = ReportMode.warning then
              DiagnosticCategory.warning
            else
              DiagnosticCategory.error
          message := "Cycle detected in import chain\n" ++
            String.intercalate "\n" (cirDep.paths.map fun path => "  " ++ path) }
    else
      concatenated
  if s.isTypeshedStubFile ∧ options.reportTypeshedErrors = ReportMode.none then
    none
  else
    let downgraded :=
      if s.isTypeshedStubFile ∧ options.reportTypeshedErrors = ReportMode.warning then
        withCycles.map fun diag =>
          if diag.category = DiagnosticCategory.error then
            { diag with category := DiagnosticCategory.warning }
          else
            diag
      else
        withCycles
    match options.ignore.find? fun ignorePath => jsStartsWith s.filePath ignorePath with
    | some firstMatch => if firstMatch = "" then some downgraded else some []
    | none => some downgraded

namespace SourceFile

/-- One step preserves "the job's analyzed contents version never runs ahead of
the current contents version": only `parse` writes it, and it writes the
then-current version, while `markDirty` only moves the current version up. -/
theorem step_job_version_le {s t : SourceFile} (hstep : Step s t)
    (ih : s.analysisJob.fileContentsVersion ≤ s.fileContentsVersion) :
    t.analysisJob.fileContentsVersion ≤ t.fileContentsVersion := by
  cases hstep with
  | markDirty =>
    simp only [markDirty]
    omega
  | markReanalysisRequired =>
    simpa [markReanalysisRequired] using ih
  | setClientVersion version contents =>
    cases version with
    | none => simpa [setClientVersion] using ih
    | some v =>
      cases hf : s.fileContents with
      | none => simp [setClientVersion, hf]; exact ih
      | some oldContents =>
        by_cases hc : oldContents = contents
        · simp [setClientVersion, hf, hc]; exact ih
        · simp [setClientVersion, hf, hc, markDirty]; omega
  | setTypeAnalysisPassNeeded =>
    simpa [setTypeAnalysisPassNeeded] using ih
  | addCircularDependency circDependency =>
    by_cases hlen :
        s.analysisJob.circularDependencies.length < MaxImportCyclesPerFile
    · by_cases hdup :
          (s.analysisJob.circularDependencies.any fun dep =>
            dep.isEqual circDependency) = true
      · simpa [addCircularDependency, hlen, hdup] using ih
      · simp [addCircularDependency, hlen, hdup]; exact ih
    · simpa [addCircularDependency, hlen] using ih
  | parse diskContents parserRun resolver =>
    cases hp : s.isParseRequired with
    | false => simpa [parse, hp] using ih
    | true => simp [parse, hp]
  | doSemanticAnalysis analyzerRun h1 h2 h3 =>
    cases analyzerRun with
    | ok sinkDiagnostics =>
      by_cases hcl : (s.analysisJob.parseResults.isSome &&
          s.analysisJob.parseTreeNeedsCleaning) = true
      · simp [doSemanticAnalysis, cleanParseTreeIfRequired, hcl]; exact ih
      · simp [doSemanticAnalysis, cleanParseTreeIfRequired, hcl]; exact ih
    | error e =>
      by_cases hcl : (s.analysisJob.parseResults.isSome &&
          s.analysisJob.parseTreeNeedsCleaning) = true
      · simp [doSemanticAnalysis, cleanParseTreeIfRequired, hcl]; exact ih
      · simp [doSemanticAnalysis, cleanParseTreeIfRequired, hcl]; exact ih
  | doTypeAnalysis analyzerRun h1 h2 h3 h4 =>
    cases analyzerRun with
    | ok value =>
      obtain ⟨passNeeded, sinkDiagnostics⟩ := value
      simpa [doTypeAnalysis] using ih
    | error e =>
      simpa [doTypeAnalysis] using ih
  | finalizeAnalysis h =>
    simpa [finalizeAnalysis] using ih

/-- In every reachable state the job's analyzed contents version is at most the
current contents version. -/
theorem reachable_job_version_le {s : SourceFile} (h : s.Reachable) :
    s.analysisJob.fileContentsVersion ≤ s.fileContentsVersion := by
  induction h with
  | create filePath isTypeshedStubFile =>
    show (-1 : Int) ≤ 0
    norm_num
  | step hr hstep ih =>
    exact step_job_version_le hstep ih

end SourceFile

/-- C1: the four phase predicates are pure functions of the state with exactly
the stated meanings — `isParseRequired` iff the analyzed contents version
differs from the current one, `isSemanticAnalysisRequired` iff parse is
required or the next phase is at most SemanticAnalysis, `isTypeAnalysisRequired`
iff semantic analysis is required or the next phase is below TypeAnalysis or a
further type-analysis pass is needed, and `isAnalysisFinalized` iff type
analysis is not required and the job is marked finalized — and immediately
after construction the three `*Required` predicates are true while
`isAnalysisFinalized` is false. -/
theorem phase_predicate_meanings :
    (∀ s : SourceFile,
      (s.isParseRequired = true ↔
        s.analysisJob.fileContentsVersion ≠ s.fileContentsVersion) ∧
      (s.isSemanticAnalysisRequired = true ↔
        (s.isParseRequired = true ∨
          s.analysisJob.nextPhaseToRun ≤ AnalysisPhase.SemanticAnalysis)) ∧
      (s.isTypeAnalysisRequired = true ↔
        (s.isSemanticAnalysisRequired = true ∨
          s.analysisJob.nextPhaseToRun < AnalysisPhase.TypeAnalysis ∨
          s.analysisJob.isTypeAnalysisPassNeeded = true)) ∧
      (s.isAnalysisFinalized = true ↔
        (s.isTypeAnalysisRequired = false ∧
          s.analysisJob.isTypeAnalysisFinalized = true))) ∧
    (∀ (filePath : String) (isTypeshedStubFile : Bool),
      (SourceFile.create filePath isTypeshedStubFile).isParseRequired = true ∧
      (SourceFile.create filePath isTypeshedStubFile).isSemanticAnalysisRequired = true ∧
      (SourceFile.create filePath isTypeshedStubFile).isTypeAnalysisRequired = true ∧
      (SourceFile.create filePath isTypeshedStubFile).isAnalysisFinalized = false) := by
  constructor
  · intro s
    refine ⟨?_, ?_, ?_, ?_⟩
    · simp [SourceFile.isParseRequired]
    · cases hp : s.isParseRequired <;>
        simp [SourceFile.isSemanticAnalysisRequired, hp]
    · cases hs : s.isSemanticAnalysisRequired <;>
        cases hb : s.analysisJob.isTypeAnalysisPassNeeded <;>
        simp [SourceFile.isTypeAnalysisRequired, hs, hb]
    · cases ht : s.isTypeAnalysisRequired <;>
        simp [SourceFile.isAnalysisFinalized, ht]
  · intro filePath isTypeshedStubFile
    exact ⟨rfl, rfl, rfl, rfl⟩

/-- C7: `markDirty` always makes a parse required again (it bumps the contents
version), clears the finalized flag, and rewinds the phase cursor to
SemanticAnalysis; `markReanalysisRequired` leaves `isParseRequired` unchanged
(touching neither contents version), forces `isSemanticAnalysisRequired` to
true, sets the cleaning flag, clears the finalized flag, and leaves the parse
results, all four diagnostic buckets, and the diagnostic version untouched. -/
theorem markDirty_markReanalysisRequired_effects (s : SourceFile)
    (h : s.Reachable) :
    s.markDirty.isParseRequired = true ∧
    s.markDirty.fileContentsVersion = s.fileContentsVersion + 1 ∧
    s.markDirty.analysisJob.isTypeAnalysisFinalized = false ∧
    s.markDirty.analysisJob.nextPhaseToRun = AnalysisPhase.SemanticAnalysis ∧
    s.markReanalysisRequired.isParseRequired = s.isParseRequired ∧
    s.markReanalysisRequired.fileContentsVersion = s.fileContentsVersion ∧
    s.markReanalysisRequired.analysisJob.fileContentsVersion =
      s.analysisJob.fileContentsVersion ∧
    s.markReanalysisRequired.isSemanticAnalysisRequired = true ∧
    s.markReanalysisRequired.analysisJob.parseTreeNeedsCleaning = true ∧
    s.markReanalysisRequired.analysisJob.isTypeAnalysisFinalized = false ∧
    s.markReanalysisRequired.analysisJob.nextPhaseToRun =
      AnalysisPhase.SemanticAnalysis ∧
    s.markReanalysisRequired.analysisJob.parseResults = s.analysisJob.parseResults ∧
    s.markReanalysisRequired.analysisJob.parseDiagnostics =
      s.analysisJob.parseDiagnostics ∧
    s.markReanalysisRequired.analysisJob.semanticAnalysisDiagnostics =
      s.analysisJob.semanticAnalysisDiagnostics ∧
    s.markReanalysisRequired.analysisJob.typeAnalysisLastPassDiagnostics =
      s.analysisJob.typeAnalysisLastPassDiagnostics ∧
    s.markReanalysisRequired.analysisJob.typeAnalysisFinalDiagnostics =
      s.analysisJob.typeAnalysisFinalDiagnostics ∧
    s.markReanalysisRequired.diagnosticVersion = s.diagnosticVersion := by
  have hle := SourceFile.reachable_job_version_le h
  refine ⟨?_, rfl, rfl, rfl, rfl, rfl, rfl, ?_, rfl, rfl, rfl, rfl, rfl, rfl,
    rfl, rfl, rfl⟩
  · simp only [SourceFile.markDirty, SourceFile.isParseRequired, bne_iff_ne,
      ne_eq, decide_eq_true_eq]
    omega
  · cases hp : s.markReanalysisRequired.isParseRequired <;>
      simp [SourceFile.isSemanticAnalysisRequired, hp,
        SourceFile.markReanalysisRequired, AnalysisPhase.SemanticAnalysis]

/-- Witness for C7 at a concrete reachable state. -/
theorem markDirty_markReanalysisRequired_effects_witness :
    (SourceFile.create "/proj/a.py" false).markDirty.isParseRequired = true ∧
    (SourceFile.create "/proj/a.py" false).markReanalysisRequired.isSemanticAnalysisRequired
      = true :=
  ⟨(markDirty_markReanalysisRequired_effects _
      (SourceFile.Reachable.create "/proj/a.py" false)).1,
    (markDirty_markReanalysisRequired_effects _
      (SourceFile.Reachable.create "/proj/a.py" false)).2.2.2.2.2.2.2.1⟩

/-- C2: `parse` is a no-op returning `false` when no parse is required;
otherwise it returns `true` and, whether the external parser/walker/import
resolution succeeded or threw, it records the current contents version as
analyzed (so `isParseRequired` becomes false), rewinds the next phase to
SemanticAnalysis, clears the cleaning flag, and bumps the diagnostic version by
one; and when the try block threw, the handler installs the empty placeholder
parse results (empty token and line collections), clears `imports` and
`builtinsImport`, and replaces the parse bucket with exactly one synthetic
internal-error diagnostic. -/
theorem parse_contract (s : SourceFile) (diskContents : Option String)
    (parserRun : String → Except Unit ParseSuccess)
    (resolver : ImportDescriptor → ImportResult) :
    (s.isParseRequired = false →
      s.parse diskContents parserRun resolver = (s, false)) ∧
    (s.isParseRequired = true →
      (s.parse diskContents parserRun resolver).2 = true ∧
      (s.parse diskContents parserRun resolver).1.analysisJob.fileContentsVersion =
        s.fileContentsVersion ∧
      (s.parse diskContents parserRun resolver).1.isParseRequired = false ∧
      (s.parse diskContents parserRun resolver).1.analysisJob.nextPhaseToRun =
        AnalysisPhase.SemanticAnalysis ∧
      (s.parse diskContents parserRun resolver).1.analysisJob.parseTreeNeedsCleaning =
        false ∧
      (s.parse diskContents parserRun resolver).1.diagnosticVersion =
        s.diagnosticVersion + 1 ∧
      (parserRun (s.resolveFileContents diskContents).2 = Except.error () →
        (s.parse diskContents parserRun resolver).1.analysisJob.parseResults =
          some emptyParseResults ∧
        (s.parse diskContents parserRun resolver).1.analysisJob.imports = none ∧
        (s.parse diskContents parserRun resolver).1.analysisJob.builtinsImport =
          none ∧
        (s.parse diskContents parserRun resolver).1.analysisJob.parseDiagnostics =
          [internalParseErrorDiagnostic])) := by
  constructor
  · intro hp
    simp [SourceFile.parse, hp]
  · intro hp
    replace hp : s.analysisJob.fileContentsVersion ≠ s.fileContentsVersion := by
      simpa [SourceFile.isParseRequired] using hp
    cases hres : parserRun (s.resolveFileContents diskContents).2 with
    | ok success =>
      simp [SourceFile.parse, SourceFile.isParseRequired, hp, hres]
    | error e =>
      simp [SourceFile.parse, SourceFile.isParseRequired, hp, hres]

/-- Witness for C2 at a concrete faulting parse. -/
theorem parse_contract_witness :
    ((SourceFile.create "/proj/a.py" false).parse (some "import b")
        (fun _ => Except.error ()) (fun _ => ImportResult.mk [])).2 = true ∧
    ((SourceFile.create "/proj/a.py" false).parse (some "import b")
        (fun _ => Except.error ()) (fun _ => ImportResult.mk [])).1.analysisJob.parseDiagnostics
      = [internalParseErrorDiagnostic] :=
  have h := parse_contract (SourceFile.create "/proj/a.py" false) (some "import b")
    (fun _ => Except.error ()) (fun _ => ImportResult.mk [])
  ⟨(h.2 rfl).1, ((h.2 rfl).2.2.2.2.2.2 rfl).2.2.2⟩

/-- C3: when the external type analyzer throws (with the operation's asserted
preconditions satisfied), the catch handler replaces the last-pass bucket with
exactly one synthetic internal-error diagnostic and forces
`isTypeAnalysisPassNeeded` to false, so afterwards `isTypeAnalysisRequired` is
false and a coordinator looping while it is true terminates for this file. -/
theorem doTypeAnalysis_fault_forces_convergence (s : SourceFile)
    (h1 : s.isParseRequired = false)
    (h2 : s.isSemanticAnalysisRequired = false)
    (h3 : s.isTypeAnalysisRequired = true)
    (h4 : s.analysisJob.nextPhaseToRun = AnalysisPhase.TypeAnalysis) :
    (s.doTypeAnalysis (Except.error ())).analysisJob.typeAnalysisLastPassDiagnostics
      = [internalTypeErrorDiagnostic] ∧
    (s.doTypeAnalysis (Except.error ())).analysisJob.isTypeAnalysisPassNeeded
      = false ∧
    (s.doTypeAnalysis (Except.error ())).isTypeAnalysisRequired = false := by
  refine ⟨rfl, rfl, ?_⟩
  simp only [SourceFile.isParseRequired] at h1
  simp [SourceFile.doTypeAnalysis, SourceFile.isTypeAnalysisRequired,
    SourceFile.isSemanticAnalysisRequired, SourceFile.isParseRequired, h1, h4,
    AnalysisPhase.TypeAnalysis, AnalysisPhase.SemanticAnalysis]

/-- Witness for C3 at a concrete state reached by parse then semantic
analysis. -/
theorem doTypeAnalysis_fault_forces_convergence_witness :
    ((((SourceFile.create "/proj/a.py" false).parse (some "x = 1")
          (fun _ => Except.ok ⟨emptyParseResults, [], []⟩)
          (fun _ => ImportResult.mk ["/ts/builtins.pyi"])).1.doSemanticAnalysis
        (Except.ok [])).doTypeAnalysis (Except.error ())).isTypeAnalysisRequired
      = false :=
  (doTypeAnalysis_fault_forces_convergence _ (by decide) (by decide) (by decide)
    (by decide)).2.2

/-- C8: `finalizeAnalysis` (under its asserted precondition) marks type
analysis finalized, moves the last-pass bucket into the finalized bucket
(replacing its prior content), leaves the last-pass bucket empty, and bumps the
diagnostic version by one. -/
theorem finalizeAnalysis_moves (s : SourceFile)
    (h : s.isTypeAnalysisRequired = false) :
    s.finalizeAnalysis.analysisJob.isTypeAnalysisFinalized = true ∧
    s.finalizeAnalysis.analysisJob.typeAnalysisFinalDiagnostics =
      s.analysisJob.typeAnalysisLastPassDiagnostics ∧
    s.finalizeAnalysis.analysisJob.typeAnalysisLastPassDiagnostics = [] ∧
    s.finalizeAnalysis.diagnosticVersion = s.diagnosticVersion + 1 :=
  ⟨rfl, rfl, rfl, rfl⟩

/-- Witness for C8 at a concrete converged state. -/
theorem finalizeAnalysis_moves_witness :
    ((((SourceFile.create "/proj/a.py" false).parse (some "x = 1")
          (fun _ => Except.ok ⟨emptyParseResults, [], []⟩)
          (fun _ => ImportResult.mk ["/ts/builtins.pyi"])).1.doSemanticAnalysis
        (Except.ok [])).doTypeAnalysis
        (Except.ok (false, [Diagnostic.mkError "t"]))).finalizeAnalysis.analysisJob.typeAnalysisFinalDiagnostics
      = [Diagnostic.mkError "t"] :=
  (finalizeAnalysis_moves _ (by decide)).2.1

/-- C4 (amended): the diagnostic version is bumped by exactly one on every
`parse` that actually runs, on every `doSemanticAnalysis`, and on every
`finalizeAnalysis` (successful or faulted); `doTypeAnalysis` leaves the
diagnostic version unchanged even though it replaces the last-pass bucket (that
bucket only becomes visible at finalize); and `getDiagnostics` returns
`undefined` whenever the supplied previous version equals the current one. -/
theorem diagnosticVersion_bumps :
    (∀ (s : SourceFile) (diskContents : Option String)
        (parserRun : String → Except Unit ParseSuccess)
        (resolver : ImportDescriptor → ImportResult),
      s.isParseRequired = true →
      (s.parse diskContents parserRun resolver).1.diagnosticVersion =
        s.diagnosticVersion + 1) ∧
    (∀ (s : SourceFile) (analyzerRun : Except Unit (List Diagnostic)),
      (s.doSemanticAnalysis analyzerRun).diagnosticVersion =
        s.diagnosticVersion + 1) ∧
    (∀ (s : SourceFile) (analyzerRun : Except Unit (Bool × List Diagnostic)),
      (s.doTypeAnalysis analyzerRun).diagnosticVersion = s.diagnosticVersion) ∧
    (∀ s : SourceFile,
      s.finalizeAnalysis.diagnosticVersion = s.diagnosticVersion + 1) ∧
    (∀ (s : SourceFile) (options : ConfigOptions),
      s.getDiagnostics options (some s.diagnosticVersion) = none) := by
  refine ⟨?_, ?_, ?_, fun s => rfl, ?_⟩
  · intro s diskContents parserRun resolver hp
    replace hp : s.analysisJob.fileContentsVersion ≠ s.fileContentsVersion := by
      simpa [SourceFile.isParseRequired] using hp
    cases hres : parserRun (s.resolveFileContents diskContents).2 with
    | ok success => simp [SourceFile.parse, SourceFile.isParseRequired, hp, hres]
    | error e => simp [SourceFile.parse, SourceFile.isParseRequired, hp, hres]
  · intro s analyzerRun
    cases analyzerRun with
    | ok sinkDiagnostics =>
      by_cases hcl : (s.analysisJob.parseResults.isSome &&
          s.analysisJob.parseTreeNeedsCleaning) = true <;>
        simp [SourceFile.doSemanticAnalysis, SourceFile.cleanParseTreeIfRequired, hcl]
    | error e =>
      by_cases hcl : (s.analysisJob.parseResults.isSome &&
          s.analysisJob.parseTreeNeedsCleaning) = true <;>
        simp [SourceFile.doSemanticAnalysis, SourceFile.cleanParseTreeIfRequired, hcl]
  · intro s analyzerRun
    cases analyzerRun with
    | ok value =>
      obtain ⟨passNeeded, sinkDiagnostics⟩ := value
      simp [SourceFile.doTypeAnalysis]
    | error e => simp [SourceFile.doTypeAnalysis]
  · intro s options
    simp [SourceFile.getDiagnostics]

/-- Witness for C4 (amended) at a concrete parse. -/
theorem diagnosticVersion_bumps_witness :
    ((SourceFile.create "/proj/a.py" false).parse (some "x = 1")
        (fun _ => Except.ok ⟨emptyParseResults, [], []⟩)
        (fun _ => ImportResult.mk ["/ts/builtins.pyi"])).1.diagnosticVersion
      = 1 :=
  diagnosticVersion_bumps.1 (SourceFile.create "/proj/a.py" false) (some "x = 1")
    (fun _ => Except.ok ⟨emptyParseResults, [], []⟩)
    (fun _ => ImportResult.mk ["/ts/builtins.pyi"]) (by decide)

/-- Counterexample to C4 as stated: a `doTypeAnalysis` call whose asserted
preconditions all hold and which changes the last-pass diagnostics bucket, yet
leaves the diagnostic version exactly equal to what it was before the call. -/
theorem diagnosticVersion_typeAnalysis_counterexample :
    ((((SourceFile.create "/proj/a.py" false).parse (some "x = 1")
          (fun _ => Except.ok ⟨emptyParseResults, [], []⟩)
          (fun _ => ImportResult.mk ["/ts/builtins.pyi"])).1.doSemanticAnalysis
        (Except.ok [])).isParseRequired = false) ∧
    ((((SourceFile.create "/proj/a.py" false).parse (some "x = 1")
          (fun _ => Except.ok ⟨emptyParseResults, [], []⟩)
          (fun _ => ImportResult.mk ["/ts/builtins.pyi"])).1.doSemanticAnalysis
        (Except.ok [])).isSemanticAnalysisRequired = false) ∧
    ((((SourceFile.create "/proj/a.py" false).parse (some "x = 1")
          (fun _ => Except.ok ⟨emptyParseResults, [], []⟩)
          (fun _ => ImportResult.mk ["/ts/builtins.pyi"])).1.doSemanticAnalysis
        (Except.ok [])).isTypeAnalysisRequired = true) ∧
    ((((SourceFile.create "/proj/a.py" false).parse (some "x = 1")
          (fun _ => Except.ok ⟨emptyParseResults, [], []⟩)
          (fun _ => ImportResult.mk ["/ts/builtins.pyi"])).1.doSemanticAnalysis
        (Except.ok [])).analysisJob.nextPhaseToRun = AnalysisPhase.TypeAnalysis) ∧
    (((((SourceFile.create "/proj/a.py" false).parse (some "x = 1")
          (fun _ => Except.ok ⟨emptyParseResults, [], []⟩)
          (fun _ => ImportResult.mk ["/ts/builtins.pyi"])).1.doSemanticAnalysis
        (Except.ok [])).doTypeAnalysis
        (Except.ok (false, [Diagnostic.mkError "a type error"]))).analysisJob.typeAnalysisLastPassDiagnostics
      ≠ (((SourceFile.create "/proj/a.py" false).parse (some "x = 1")
          (fun _ => Except.ok ⟨emptyParseResults, [], []⟩)
          (fun _ => ImportResult.mk ["/ts/builtins.pyi"])).1.doSemanticAnalysis
        (Except.ok [])).analysisJob.typeAnalysisLastPassDiagnostics) ∧
    (((((SourceFile.create "/proj/a.py" false).parse (some "x = 1")
          (fun _ => Except.ok ⟨emptyParseResults, [], []⟩)
          (fun _ => ImportResult.mk ["/ts/builtins.pyi"])).1.doSemanticAnalysis
        (Except.ok [])).doTypeAnalysis
        (Except.ok (false, [Diagnostic.mkError "a type error"]))).diagnosticVersion
      = (((SourceFile.create "/proj/a.py" false).parse (some "x = 1")
          (fun _ => Except.ok ⟨emptyParseResults, [], []⟩)
          (fun _ => ImportResult.mk ["/ts/builtins.pyi"])).1.doSemanticAnalysis
        (Except.ok [])).diagnosticVersion) := by
  refine ⟨rfl, rfl, rfl, rfl, ?_, rfl⟩
  decide

/-- Counterexample to C5 as stated: a state with a non-empty parse bucket, an
ignore list whose entry is the empty string (which the file path does start
with), and a differing previous version — the claim's step (4) demands an
empty list, and its four-step recomputation produces one, but the code's
`if (options.ignore.find(...))` sees the matched empty string, which is falsy,
and returns the full diagnostic list. -/
theorem getDiagnostics_ignore_empty_string_counterexample :
    (("" ∈ ([""] : List String)) ∧
      jsStartsWith ((SourceFile.create "/proj/a.py" false).parse (some "x = 1")
          (fun _ => Except.error ())
          (fun _ => ImportResult.mk [])).1.filePath "" = true ∧
      some 0 ≠ some ((SourceFile.create "/proj/a.py" false).parse (some "x = 1")
          (fun _ => Except.error ())
          (fun _ => ImportResult.mk [])).1.diagnosticVersion) ∧
    ((SourceFile.create "/proj/a.py" false).parse (some "x = 1")
        (fun _ => Except.error ())
        (fun _ => ImportResult.mk [])).1.getDiagnostics
        ⟨ReportMode.none, ReportMode.none, [""], false⟩ (some 0) =
      some [internalParseErrorDiagnostic] ∧
    getDiagnosticsRecomputed
        ((SourceFile.create "/proj/a.py" false).parse (some "x = 1")
          (fun _ => Except.error ())
          (fun _ => ImportResult.mk [])).1
        ⟨ReportMode.none, ReportMode.none, [""], false⟩ =
      some [] := by
  refine ⟨⟨?_, ?_, ?_⟩, ?_, ?_⟩ <;> decide

/-- C5 (amended): whenever the supplied previous version differs from the
current diagnostic version, `getDiagnostics` computes exactly the four-step
recomputation with step (4) read through JS truthiness: bucket concatenation in
parse/semantic/finalized order, then cycle diagnostics, then the typeshed-stub
suppression or downgrade, and last of all the ignore filter, which empties the
list exactly when the first configured ignore path the file path starts with
exists and is non-empty. -/
theorem getDiagnostics_matches_amended_recomputation (s : SourceFile)
    (options : ConfigOptions) (prevDiagnosticVersion : Option Nat)
    (h : prevDiagnosticVersion ≠ some s.diagnosticVersion) :
    s.getDiagnostics options prevDiagnosticVersion =
      getDiagnosticsRecomputedAmended s options := by
  rcases hfind : options.ignore.find? fun ignorePath =>
      jsStartsWith s.filePath ignorePath with _ | ⟨firstMatch⟩
  · rcases hcyc : s.analysisJob.circularDependencies with _ | ⟨firstDep, restDeps⟩ <;>
      by_cases hmode : options.reportImportCycles = ReportMode.none <;>
      by_cases hts : s.isTypeshedStubFile = true <;>
      by_cases htsNone : options.reportTypeshedErrors = ReportMode.none <;>
      by_cases htsWarn : options.reportTypeshedErrors = ReportMode.warning <;>
      simp [SourceFile.getDiagnostics, getDiagnosticsRecomputedAmended,
        jsFindTruthy, h, hcyc, hmode, hts, htsNone, htsWarn, hfind]
  · by_cases hemp : firstMatch = "" <;>
      rcases hcyc : s.analysisJob.circularDependencies with _ | ⟨firstDep, restDeps⟩ <;>
      by_cases hmode : options.reportImportCycles = ReportMode.none <;>
      by_cases hts : s.isTypeshedStubFile = true <;>
      by_cases htsNone : options.reportTypeshedErrors = ReportMode.none <;>
      by_cases htsWarn : options.reportTypeshedErrors = ReportMode.warning <;>
      simp [SourceFile.getDiagnostics, getDiagnosticsRecomputedAmended,
        jsFindTruthy, h, hcyc, hmode, hts, htsNone, htsWarn, hfind, hemp]

/-- Witness for C5 (amended) on a concrete state and configuration with a
non-empty matching ignore path. -/
theorem getDiagnostics_matches_amended_recomputation_witness :
    (SourceFile.create "/proj/a.py" false).getDiagnostics
        ⟨ReportMode.error, ReportMode.error, ["/proj"], false⟩ (some 5) =
      getDiagnosticsRecomputedAmended (SourceFile.create "/proj/a.py" false)
        ⟨ReportMode.error, ReportMode.error, ["/proj"], false⟩ :=
  getDiagnostics_matches_amended_recomputation (SourceFile.create "/proj/a.py" false)
    ⟨ReportMode.error, ReportMode.error, ["/proj"], false⟩ (some 5) (by decide)

/-- One `addCircularDependency` call keeps the stored list within the cap. -/
theorem addCircularDependency_length_le (s : SourceFile)
    (circDependency : CircularDependency)
    (h : s.analysisJob.circularDependencies.length ≤ MaxImportCyclesPerFile) :
    (s.addCircularDependency circDependency).analysisJob.circularDependencies.length
      ≤ MaxImportCyclesPerFile := by
  by_cases hlen :
      s.analysisJob.circularDependencies.length < MaxImportCyclesPerFile
  · by_cases hdup :
        (s.analysisJob.circularDependencies.any fun dep =>
          dep.isEqual circDependency) = true
    · simpa [SourceFile.addCircularDependency, hlen, hdup] using h
    · simp [SourceFile.addCircularDependency, hlen, hdup]
      omega
  · simpa [SourceFile.addCircularDependency, hlen] using h

/-- C6: starting from any state within the 4-entry cap, no sequence of
`addCircularDependency` calls ever grows the stored list beyond 4 entries; a
dependency structurally equal (`isEqual`) to a stored one is never added again;
and once 4 entries are stored every further call returns the state unchanged. -/
theorem addCircularDependency_cap_and_dedup :
    (∀ (newDeps : List CircularDependency) (s : SourceFile),
      s.analysisJob.circularDependencies.length ≤ 4 →
      ((newDeps.foldl (fun t d => t.addCircularDependency d)
        s).analysisJob.circularDependencies.length ≤ 4)) ∧
    (∀ (s : SourceFile) (circDependency : CircularDependency),
      (∃ dep ∈ s.analysisJob.circularDependencies,
        dep.isEqual circDependency = true) →
      s.addCircularDependency circDependency = s) ∧
    (∀ (s : SourceFile) (circDependency : CircularDependency),
      4 ≤ s.analysisJob.circularDependencies.length →
      s.addCircularDependency circDependency = s) := by
  refine ⟨?_, ?_, ?_⟩
  · intro newDeps
    induction newDeps with
    | nil => intro s h; simpa using h
    | cons d rest ih =>
      intro s h
      exact ih _ (addCircularDependency_length_le s d h)
  · intro s circDependency hdup
    have hany : (s.analysisJob.circularDependencies.any fun dep =>
        dep.isEqual circDependency) = true := by
      rcases hdup with ⟨dep, hmem, heq⟩
      exact List.any_eq_true.mpr ⟨dep, hmem, heq⟩
    by_cases hlen :
        s.analysisJob.circularDependencies.length < MaxImportCyclesPerFile
    · simp [SourceFile.addCircularDependency, hlen, hany]
    · simp [SourceFile.addCircularDependency, hlen]
  · intro s circDependency hfull
    have hlen : ¬ s.analysisJob.circularDependencies.length <
        MaxImportCyclesPerFile := by
      simp [MaxImportCyclesPerFile]
      omega
    simp [SourceFile.addCircularDependency, hlen]

/-- Witness for C6: five distinct cycles stay capped at 4; a duplicate and an
at-cap insertion are both dropped. -/
theorem addCircularDependency_cap_and_dedup_witness :
    (([⟨["a"]⟩, ⟨["b"]⟩, ⟨["c"]⟩, ⟨["d"]⟩,
        (⟨["e"]⟩ : CircularDependency)].foldl
      (fun t d => t.addCircularDependency d)
      (SourceFile.create "/proj/a.py" false)).analysisJob.circularDependencies.length
      ≤ 4) ∧
    ((SourceFile.create "/proj/a.py" false).addCircularDependency
        ⟨["a"]⟩ |>.addCircularDependency ⟨["a"]⟩) =
      (SourceFile.create "/proj/a.py" false).addCircularDependency ⟨["a"]⟩ ∧
    (([⟨["a"]⟩, ⟨["b"]⟩, ⟨["c"]⟩,
        (⟨["d"]⟩ : CircularDependency)].foldl
      (fun t d => t.addCircularDependency d)
      (SourceFile.create "/proj/a.py" false)).addCircularDependency ⟨["e"]⟩) =
      ([⟨["a"]⟩, ⟨["b"]⟩, ⟨["c"]⟩,
        (⟨["d"]⟩ : CircularDependency)].foldl
      (fun t d => t.addCircularDependency d)
      (SourceFile.create "/proj/a.py" false)) :=
  ⟨addCircularDependency_cap_and_dedup.1 _ _ (by decide),
    addCircularDependency_cap_and_dedup.2.1 _ _ (by decide),
    addCircularDependency_cap_and_dedup.2.2 _ _ (by decide)⟩

/-- C9: after every successful parse of a file that is neither the builtins nor
the typing module (first resolved path of each implicit import differs from the
file's own path), `getImports()` lists the implicit builtins import first, the
implicit typing import second, and then one entry per explicit import in
discovery order, each resolved from its leading-dot count, name segments and
optional symbol allowlist; and an implicit import whose first resolved path
equals the file's own path is omitted. -/
theorem getImports_order :
    (∀ (s : SourceFile) (diskContents : Option String)
        (parserRun : String → Except Unit ParseSuccess)
        (resolver : ImportDescriptor → ImportResult) (success : ParseSuccess),
      s.isParseRequired = true →
      parserRun (s.resolveFileContents diskContents).2 = Except.ok success →
      (resolver ⟨0, ["builtins"], none⟩).resolvedPaths.head? ≠ some s.filePath →
      (resolver ⟨0, ["typing"], none⟩).resolvedPaths.head? ≠ some s.filePath →
      (s.parse diskContents parserRun resolver).1.getImports =
        resolver ⟨0, ["builtins"], none⟩ :: resolver ⟨0, ["typing"], none⟩ ::
          success.moduleImports.map (fun moduleImport =>
            resolver ⟨moduleImport.leadingDots, moduleImport.nameParts,
              moduleImport.importedSymbols⟩)) ∧
    (∀ (filePath : String) (resolver : ImportDescriptor → ImportResult)
        (moduleImports : List ModuleImport),
      (resolver ⟨0, ["builtins"], none⟩).resolvedPaths.head? = some filePath →
      (resolver ⟨0, ["typing"], none⟩).resolvedPaths.head? ≠ some filePath →
      (SourceFile.resolveImports filePath resolver moduleImports).1 =
        resolver ⟨0, ["typing"], none⟩ ::
          moduleImports.map (fun moduleImport =>
            resolver ⟨moduleImport.leadingDots, moduleImport.nameParts,
              moduleImport.importedSymbols⟩) ∧
      (SourceFile.resolveImports filePath resolver moduleImports).2.1 = none) ∧
    (∀ (filePath : String) (resolver : ImportDescriptor → ImportResult)
        (moduleImports : List ModuleImport),
      (resolver ⟨0, ["builtins"], none⟩).resolvedPaths.head? ≠ some filePath →
      (resolver ⟨0, ["typing"], none⟩).resolvedPaths.head? = some filePath →
      (SourceFile.resolveImports filePath resolver moduleImports).1 =
        resolver ⟨0, ["builtins"], none⟩ ::
          moduleImports.map (fun moduleImport =>
            resolver ⟨moduleImport.leadingDots, moduleImport.nameParts,
              moduleImport.importedSymbols⟩) ∧
      (SourceFile.resolveImports filePath resolver moduleImports).2.2 = none) := by
  refine ⟨?_, ?_, ?_⟩
  · intro s diskContents parserRun resolver success hp hres hb ht
    replace hp : s.analysisJob.fileContentsVersion ≠ s.fileContentsVersion := by
      simpa [SourceFile.isParseRequired] using hp
    simp [SourceFile.parse, SourceFile.getImports, SourceFile.resolveImports,
      SourceFile.isParseRequired, hp, hres, hb, ht]
  · intro filePath resolver moduleImports hb ht
    simp [SourceFile.resolveImports, hb, ht]
  · intro filePath resolver moduleImports hb ht
    simp [SourceFile.resolveImports, hb, ht]

/-- Witness for C9: the spec's scenario — one explicit import with two leading
dots and segments pkg.b resolving to one path — yields exactly three entries in
the order builtins, typing, explicit. -/
theorem getImports_order_witness :
    ((SourceFile.create "/proj/a.py" false).parse (some "from ..pkg import b")
        (fun _ => Except.ok ⟨emptyParseResults, [],
          [⟨2, ["pkg", "b"], none⟩]⟩)
        (fun d =>
          if d.nameParts = ["builtins"] then ⟨["/ts/builtins.pyi"]⟩
          else if d.nameParts = ["typing"] then ⟨["/ts/typing.pyi"]⟩
          else ⟨["/proj/pkg/b.py"]⟩)).1.getImports =
      [⟨["/ts/builtins.pyi"]⟩, ⟨["/ts/typing.pyi"]⟩, ⟨["/proj/pkg/b.py"]⟩] :=
  getImports_order.1 (SourceFile.create "/proj/a.py" false)
    (some "from ..pkg import b")
    (fun _ => Except.ok ⟨emptyParseResults, [], [⟨2, ["pkg", "b"], none⟩]⟩)
    (fun d =>
      if d.nameParts = ["builtins"] then ⟨["/ts/builtins.pyi"]⟩
      else if d.nameParts = ["typing"] then ⟨["/ts/typing.pyi"]⟩
      else ⟨["/proj/pkg/b.py"]⟩)
    ⟨emptyParseResults, [], [⟨2, ["pkg", "b"], none⟩]⟩
    (by decide) rfl (by decide) (by decide)

/-- C10: `setClientVersion` with a non-null version marks the file dirty (via
`markDirty`) exactly when an in-memory buffer was already present and differs
from the new contents; when no buffer was present (as immediately after
construction, or after a null-version call discarded it) or the buffer already
equals the new contents, only the client version and buffer are updated; a
null version discards the buffer and never marks dirty. -/
theorem setClientVersion_contract :
    (∀ (s : SourceFile) (v : Int) (contents oldContents : String),
      s.fileContents = some oldContents → oldContents ≠ contents →
      s.setClientVersion (some v) contents =
        { s.markDirty with clientVersion := some v, fileContents := some contents }) ∧
    (∀ (s : SourceFile) (v : Int) (contents : String),
      (s.fileContents = none ∨ s.fileContents = some contents) →
      s.setClientVersion (some v) contents =
        { s with clientVersion := some v, fileContents := some contents }) ∧
    (∀ (s : SourceFile) (contents : String),
      s.setClientVersion none contents =
        { s with clientVersion := none, fileContents := none }) ∧
    (∀ (filePath : String) (isTypeshedStubFile : Bool),
      (SourceFile.create filePath isTypeshedStubFile).fileContents = none) := by
  refine ⟨?_, ?_, fun s contents => rfl, fun filePath isTypeshedStubFile => rfl⟩
  · intro s v contents oldContents hf hne
    simp [SourceFile.setClientVersion, SourceFile.markDirty, hf, hne]
  · intro s v contents hf
    rcases hf with hf | hf <;> simp [SourceFile.setClientVersion, hf]

/-- Witness for C10: a differing second client write marks dirty; the first
write after construction does not. -/
theorem setClientVersion_contract_witness :
    ((SourceFile.create "/proj/a.py" false).setClientVersion (some 1)
        "x = 1").setClientVersion (some 2) "x = 2" =
      { ((SourceFile.create "/proj/a.py" false).setClientVersion (some 1)
          "x = 1").markDirty with
        clientVersion := some 2, fileContents := some "x = 2" } ∧
    (SourceFile.create "/proj/a.py" false).setClientVersion (some 1) "x = 1" =
      { SourceFile.create "/proj/a.py" false with
        clientVersion := some 1, fileContents := some "x = 1" } :=
  ⟨setClientVersion_contract.1 _ 2 "x = 2" "x = 1" rfl (by decide),
    setClientVersion_contract.2.1 _ 1 "x = 1" (Or.inl rfl)⟩
